import Mathlib

/-!
# ar-prometheus-exporter: the collector orchestration core

A shallow embedding of `collector/collector.go`, `collector/collector_context.go`,
`config/config.go` and the configuration part of `main.go`.

Conventions of the embedding

* A Go `error` is `GoError`: `none` is `nil`, `some msg` is a non-nil error.
* A channel value is identified by a number (`Chan`); what has been sent on a
  channel is the list of values sent, oldest first.
* A `float64` sample value is a rational number: `0` and `1` are exact, and the
  seconds of a duration are `nanoseconds / 10^9` (rounding is not modelled).
* A `time.Duration` / clock reading is an integer number of nanoseconds.
* The producers (`ArvancloudCollector` implementations) are opaque: they are
  functions of an external environment `σ` (upstream API, clock, their own
  state) that say what they send and return.
* Logging (`log.Info`, `log.Errorf`, `log.Debugf`) writes neither to a sink nor
  to the collector and is left out.
-/

/-- A Go `error` value: `none` is `nil`. -/
abbrev GoError := Option String

namespace config

/-- The anonymous struct type of `Config.Products`. -/
structure Products where
  CDN : Bool
  OBJECT : Bool
deriving DecidableEq, Repr

/-- Go: `type Config struct` in `config/config.go`. -/
structure Config where
  Token : String
  Products : Products
deriving DecidableEq, Repr

/-- Go: `Load`. The reader `r` is given by what reading it to the end returns
(`io.ReadAll`), and `Unmarshal` is `yaml.Unmarshal` of the YAML library: from
the bytes and the value its second argument points to, the value it leaves
there or an error. -/
def Load (Unmarshal : String → Config → Except String Config) (r : Except String String) :
    Except String Config :=
  match r with
  | .error err => .error err
  | .ok b =>
    let c : Config := { Token := "", Products := { CDN := false, OBJECT := false } }
    match Unmarshal b c with
    | .error err => .error err
    | .ok c => .ok c

end config

set_option linter.dupNamespace false

namespace collector

/-- Go: `const namespace = "arvancloud"` (`namespace` is a reserved word here). -/
def metricNamespace : String := "arvancloud"

/-- One second, in nanoseconds (`time.Second`). -/
def Second : Int := 1000000000

/-- Go: `DefaultTimeout = 5 * time.Second`. -/
def DefaultTimeout : Int := 5 * Second

/-- Modelled from the spec: `prometheus.BuildFQName` of the client library, which
is not part of this repository. The non-empty ones of namespace and subsystem
are joined to the name by "_"; an empty name gives the empty string. -/
def BuildFQName (ns subsystem name : String) : String :=
  if name = "" then ""
  else
    (if ns = "" then "" else ns ++ "_") ++
    (if subsystem = "" then "" else subsystem ++ "_") ++ name

/-- The data of a `*prometheus.Desc`: the four arguments of `prometheus.NewDesc`. -/
structure Desc where
  fqName : String
  help : String
  variableLabels : List String
  constLabels : List (String × String)
deriving DecidableEq, Repr

/-- Modelled from the spec: `prometheus.NewDesc` of the client library; it records
its arguments (`nil` const labels are the empty list). -/
def NewDesc (fqName help : String) (variableLabels : List String)
    (constLabels : List (String × String)) : Desc :=
  { fqName := fqName, help := help, variableLabels := variableLabels,
    constLabels := constLabels }

/-- Go: `var scrapeDurationDesc`. -/
def scrapeDurationDesc : Desc :=
  NewDesc (BuildFQName metricNamespace "scrape" "collector_duration_seconds")
    "arvancloud: duration of a collector scrape" [] []

/-- Go: `var scrapeSuccessDesc`. -/
def scrapeSuccessDesc : Desc :=
  NewDesc (BuildFQName metricNamespace "scrape" "collector_success")
    "arvancloud: whether a collector succeeded" [] []

/-- Go: `prometheus.ValueType`. -/
inductive ValueType where
  | CounterValue
  | GaugeValue
  | UntypedValue
deriving DecidableEq, Repr

/-- A sample (`prometheus.Metric` built by `MustNewConstMetric`). -/
structure Metric where
  desc : Desc
  valueType : ValueType
  value : ℚ
  labelValues : List String
deriving DecidableEq

/-- Modelled from the spec: `prometheus.MustNewConstMetric` of the client library,
as the sample made of its arguments. -/
def MustNewConstMetric (desc : Desc) (valueType : ValueType) (value : ℚ)
    (labelValues : List String) : Metric :=
  { desc := desc, valueType := valueType, value := value, labelValues := labelValues }

/-- Go: `time.Duration.Seconds`. -/
def Seconds (d : Int) : ℚ := (d : ℚ) / 1000000000

/-- The identity of a channel value (`chan<- prometheus.Metric` or
`chan<- *prometheus.Desc`). -/
abbrev Chan := Nat

/-- Go: `type collectorContext struct` in `collector/collector_context.go`. -/
structure collectorContext where
  ch : Chan
  token : String
deriving DecidableEq, Repr

/-- What one call `co.collect(ctx)` does: the samples it sends on `ctx.ch`, in
order, the error it returns, and the environment it leaves. -/
structure CollectResult (σ : Type) where
  sent : List Metric
  err : GoError
  env : σ

/-- Go: `type ArvancloudCollector interface`. An implementation is given by what
its two methods do in an environment `σ`: `describe` by the descriptors it
sends on the channel it is given and the environment it leaves, `collect` by
its `CollectResult`. -/
structure ArvancloudCollector (σ : Type) where
  describe : σ → List Desc × σ
  collect : collectorContext → σ → CollectResult σ

/-- Go: `type collector struct`. -/
structure collector (σ : Type) where
  collectors : List (ArvancloudCollector σ)
  timeout : Int
  token : String

/-- Go: `type Option func(*collector)`; the mutation of the pointed-to collector
is the returned collector. -/
def Option (σ : Type) : Type := collector σ → collector σ

/-- Go: `WithCDN`. The constructor `newCDNCollector` of the CDN producer is not
among the sources and is a parameter. -/
def WithCDN {σ : Type} (newCDNCollector : ArvancloudCollector σ) : Option σ :=
  fun c => { c with collectors := c.collectors ++ [newCDNCollector] }

/-- Go: `WithObject`. The constructor `newObjectCollector` of the object storage
producer is not among the sources and is a parameter. -/
def WithObject {σ : Type} (newObjectCollector : ArvancloudCollector σ) : Option σ :=
  fun c => { c with collectors := c.collectors ++ [newObjectCollector] }

/-- Go: `WithTimeout`. -/
def WithTimeout {σ : Type} (d : Int) : Option σ :=
  fun c => { c with timeout := d }

/-- Go: `NewCollector`; the result pair is the collector and the error. -/
def NewCollector {σ : Type} (cfg : config.Config) (opts : List (Option σ)) :
    collector σ × GoError :=
  let c : collector σ := { collectors := [], timeout := DefaultTimeout, token := cfg.Token }
  (opts.foldl (fun c o => o c) c, none)

/-- The state the methods of `*collector` run in: the collector `c` the receiver
points to, the environment of the producers, what has been sent on every
metric channel and on every descriptor channel, and two records kept for the
statements: `contexts`, every `collectorContext` literal evaluated so far, and
`calls`, every `collect` invocation so far as (index of the producer in
`c.collectors`, context passed). -/
structure State (σ : Type) where
  c : collector σ
  env : σ
  metrics : Chan → List Metric
  descs : Chan → List Desc
  contexts : List collectorContext
  calls : List (Nat × collectorContext)

/-- Go: `ch <- m` on a metric channel. -/
def sendMetrics {σ : Type} (s : State σ) (ch : Chan) (ms : List Metric) : State σ :=
  { s with metrics := Function.update s.metrics ch (s.metrics ch ++ ms) }

/-- Go: `ch <- d` on a descriptor channel. -/
def sendDescs {σ : Type} (s : State σ) (ch : Chan) (ds : List Desc) : State σ :=
  { s with descs := Function.update s.descs ch (s.descs ch ++ ds) }

/-- The loop `for _, co := range c.collectors { co.describe(ch) }` of `Describe`
over the remaining producers. -/
def describeLoop {σ : Type} (ch : Chan) : List (ArvancloudCollector σ) → State σ → State σ
  | [], s => s
  | co :: rest, s =>
    let r := co.describe s.env
    describeLoop ch rest (sendDescs { s with env := r.2 } ch r.1)

/-- Go: `(*collector).Describe`. -/
def Describe {σ : Type} (ch : Chan) (s : State σ) : State σ :=
  let s1 := sendDescs s ch [scrapeDurationDesc]
  let s2 := sendDescs s1 ch [scrapeSuccessDesc]
  describeLoop ch s2.c.collectors s2

/-- The loop of `connectAndCollect` over the remaining producers, the next one
having index `i`: the context literal is evaluated in every iteration, the
producer is invoked with it, and a non-nil error ends the loop. -/
def collectLoop {σ : Type} (ch : Chan) :
    Nat → List (ArvancloudCollector σ) → State σ → GoError × State σ
  | _, [], s => (none, s)
  | i, co :: rest, s =>
    let ctx : collectorContext := { ch := ch, token := s.c.token }
    let s1 : State σ := { s with contexts := s.contexts ++ [ctx] }
    let r := co.collect ctx s1.env
    let s2 : State σ :=
      sendMetrics { s1 with env := r.env, calls := s1.calls ++ [(i, ctx)] } ctx.ch r.sent
    match r.err with
    | some e => (some e, s2)
    | none => collectLoop ch (i + 1) rest s2

/-- Go: `(*collector).connectAndCollect`. -/
def connectAndCollect {σ : Type} (ch : Chan) (s : State σ) : GoError × State σ :=
  collectLoop ch 0 s.c.collectors s

/-- Go: `(*collector).startCollect`. `now` is a reading of the clock
(`time.Now`, and `time.Since` which reads it again): the reading and the
environment after it. -/
def startCollect {σ : Type} (now : σ → Int × σ) (ch : Chan) (s : State σ) : State σ :=
  let begin := now s.env
  let r := connectAndCollect ch { s with env := begin.2 }
  let finish := now r.2.env
  let duration := finish.1 - begin.1
  let success : ℚ := if r.1 ≠ none then 0 else 1
  let s1 := sendMetrics { r.2 with env := finish.2 } ch
    [MustNewConstMetric scrapeDurationDesc ValueType.GaugeValue (Seconds duration) []]
  sendMetrics s1 ch [MustNewConstMetric scrapeSuccessDesc ValueType.GaugeValue success []]

/-- Go: `(*collector).Collect`: the pass runs in one goroutine which the caller
waits for, so the call is the pass. -/
def Collect {σ : Type} (now : σ → Int × σ) (ch : Chan) (s : State σ) : State σ :=
  startCollect now ch s

/-! ### Reference notions used by the statements -/

/-- The environment left when the producers of `cs` have run `collect ctx` one
after the other, the first one in `e`. -/
def envAfter {σ : Type} (ctx : collectorContext) : List (ArvancloudCollector σ) → σ → σ
  | [], e => e
  | co :: rest, e => envAfter ctx rest (co.collect ctx e).env

/-- The samples the producers of `cs` send when they run `collect ctx` one after
the other, the first one in `e`: the concatenation in the order of `cs`. -/
def samplesOf {σ : Type} (ctx : collectorContext) :
    List (ArvancloudCollector σ) → σ → List Metric
  | [], _ => []
  | co :: rest, e => (co.collect ctx e).sent ++ samplesOf ctx rest (co.collect ctx e).env

/-- Every producer of `cs` returns `nil` from `collect ctx` when they run one
after the other, the first one in `e`. -/
def allSucceed {σ : Type} (ctx : collectorContext) :
    List (ArvancloudCollector σ) → σ → Prop
  | [], _ => True
  | co :: rest, e =>
    (co.collect ctx e).err = none ∧ allSucceed ctx rest (co.collect ctx e).env

/-- The descriptors the producers of `cs` send when their `describe` runs one
after the other, the first one in `e`: the concatenation in the order of `cs`. -/
def describedBy {σ : Type} : List (ArvancloudCollector σ) → σ → List Desc
  | [], _ => []
  | co :: rest, e => (co.describe e).1 ++ describedBy rest (co.describe e).2

/-- The option values a caller of the package can build: a call of one of its
three option constructors. -/
inductive OptionCall where
  | WithCDN
  | WithObject
  | WithTimeout (d : Int)
deriving DecidableEq, Repr

/-- The `Option` an option call evaluates to. -/
def OptionCall.eval {σ : Type} (newCDNCollector newObjectCollector : ArvancloudCollector σ) :
    OptionCall → Option σ
  | .WithCDN => collector.WithCDN newCDNCollector
  | .WithObject => collector.WithObject newObjectCollector
  | .WithTimeout d => collector.WithTimeout d

/-- The producers an option call appends: one for `WithCDN` and for `WithObject`,
none for `WithTimeout`. -/
def OptionCall.producers {σ : Type} (newCDNCollector newObjectCollector : ArvancloudCollector σ) :
    OptionCall → List (ArvancloudCollector σ)
  | .WithCDN => [newCDNCollector]
  | .WithObject => [newObjectCollector]
  | .WithTimeout _ => []

/-- The timeouts an option call sets: `d` for `WithTimeout d`, none otherwise. -/
def OptionCall.timeouts : OptionCall → List Int
  | .WithCDN => []
  | .WithObject => []
  | .WithTimeout d => [d]

/-- Whether an option call enables a producer (`WithCDN` or `WithObject`). -/
def OptionCall.enables : OptionCall → Bool
  | .WithCDN => true
  | .WithObject => true
  | .WithTimeout _ => false

/-- The state `s` with the stored timeout of its collector replaced by `d`. -/
def State.setTimeout {σ : Type} (d : Int) (s : State σ) : State σ :=
  { s with c := { s.c with timeout := d } }

/-! ### Concrete producers and states on which the statements are evaluated

The environment is a counter: every `collect` and every clock reading
increments it. -/

/-- A sample of a gauge named `name` with value `v`. -/
def demoSample (name : String) (v : Int) : Metric :=
  MustNewConstMetric (NewDesc name "demo" [] []) ValueType.GaugeValue v []

/-- A producer that sends one sample and returns nil. -/
def demoOk (name : String) : ArvancloudCollector Nat :=
  { describe := fun e => ([NewDesc name "demo" [] []], e)
    collect := fun _ e => { sent := [demoSample name e], err := none, env := e + 1 } }

/-- A producer that sends one sample and then returns an error. -/
def demoFail (name : String) : ArvancloudCollector Nat :=
  { describe := fun e => ([NewDesc name "demo" [] []], e)
    collect := fun _ e =>
      { sent := [demoSample name e], err := some "upstream error", env := e + 1 } }

/-- A producer that sends one sample for each of the two meta-metric descriptors
and returns nil. -/
def demoMeta : ArvancloudCollector Nat :=
  { describe := fun e => ([], e)
    collect := fun _ e =>
      { sent := [MustNewConstMetric scrapeDurationDesc ValueType.GaugeValue 7 [],
          MustNewConstMetric scrapeSuccessDesc ValueType.GaugeValue 1 []]
        err := none, env := e + 1 } }

/-- A clock that reads the counter in seconds and increments it. -/
def demoNow : Nat → Int × Nat :=
  fun e => ((e : Int) * Second, e + 1)

/-- The state before anything has run, for the collector with producers `cs` and
token "tok". -/
def demoState (cs : List (ArvancloudCollector Nat)) : State Nat :=
  { c := { collectors := cs, timeout := DefaultTimeout, token := "tok" }
    env := 0
    metrics := fun _ => []
    descs := fun _ => []
    contexts := []
    calls := [] }

end collector

namespace main

/-- The command-line flags of `main.go` after `flag.Parse()`. -/
structure Flags where
  configFile : String
  logFormat : String
  logLevel : String
  metricsPath : String
  token : String
  port : String
  timeout : Int
  ver : Bool
  withCDN : Bool
  withObject : Bool

/-- The values of the flags when none is given on the command line. -/
def defaultFlags : Flags :=
  { configFile := "", logFormat := "json", logLevel := "info", metricsPath := "/metrics",
    token := "", port := ":9436", timeout := collector.DefaultTimeout, ver := false,
    withCDN := false, withObject := false }

/-- Go: `loadConfigFromFile`; `ReadFile` is `os.ReadFile` and `bytes.NewReader b`
is the reader that reads `b`. -/
def loadConfigFromFile (ReadFile : String → Except String String)
    (Unmarshal : String → config.Config → Except String config.Config) (fl : Flags) :
    Except String config.Config :=
  match ReadFile fl.configFile with
  | .error err => .error err
  | .ok b => config.Load Unmarshal (.ok b)

/-- Go: `loadConfigFromFlags`. -/
def loadConfigFromFlags (fl : Flags) : Except String config.Config :=
  .ok { Token := fl.token, Products := { CDN := false, OBJECT := false } }

/-- Go: `loadConfig`. -/
def loadConfig (ReadFile : String → Except String String)
    (Unmarshal : String → config.Config → Except String config.Config) (fl : Flags) :
    Except String config.Config :=
  if fl.configFile ≠ "" then loadConfigFromFile ReadFile Unmarshal fl
  else loadConfigFromFlags fl

/-- Go: `collectorOptions`. -/
def collectorOptions {σ : Type} (newCDNCollector newObjectCollector : collector.ArvancloudCollector σ)
    (fl : Flags) (cfg : config.Config) : List (collector.Option σ) :=
  let opts : List (collector.Option σ) := []
  let opts := if fl.withCDN || cfg.Products.CDN then
    opts ++ [collector.WithCDN newCDNCollector] else opts
  let opts := if fl.withObject || cfg.Products.OBJECT then
    opts ++ [collector.WithObject newObjectCollector] else opts
  opts

/-! ### A concrete file system, YAML reading and command line on which the
statements are evaluated -/

/-- A file system with the one file "config.yml". -/
def demoReadFile : String → Except String String :=
  fun path => if path = "config.yml" then .ok "token: file-token" else .error "no such file"

/-- A YAML reading that knows the one document "token: file-token", which sets
the token and nothing else. -/
def demoUnmarshal : String → config.Config → Except String config.Config :=
  fun b c => if b = "token: file-token" then .ok { c with Token := "file-token" }
    else .error "cannot unmarshal"

/-- The command line `--config-file config.yml --token flag-token`. -/
def demoFlags : Flags :=
  { defaultFlags with configFile := "config.yml", token := "flag-token" }

/-- The command line `--token flag-token`. -/
def demoFlagsNoFile : Flags :=
  { defaultFlags with token := "flag-token" }

end main

namespace collector

/-! ### The options and `NewCollector` -/

/-- Applying the options of a list of option calls to a collector appends their
producers, keeps the token and sets the timeout to the last one given. -/
theorem foldl_optionCalls {σ : Type} (p q : ArvancloudCollector σ) (calls : List OptionCall)
    (c : collector σ) :
    ((calls.map (OptionCall.eval p q)).foldl (fun c o => o c) c).collectors =
        c.collectors ++ calls.flatMap (OptionCall.producers p q) ∧
    ((calls.map (OptionCall.eval p q)).foldl (fun c o => o c) c).token = c.token ∧
    ((calls.map (OptionCall.eval p q)).foldl (fun c o => o c) c).timeout =
        ((calls.flatMap OptionCall.timeouts).getLast?).getD c.timeout := by
  induction calls using List.reverseRecOn with
  | nil => simp
  | append_singleton l a ih =>
    obtain ⟨h1, h2, h3⟩ := ih
    cases a <;>
      simp [List.foldl_append, List.flatMap_append, OptionCall.eval, OptionCall.producers,
        OptionCall.timeouts, WithCDN, WithObject, WithTimeout, h1, h2, h3,
        List.getLast?_append]

/-- The number of producers appended by a list of option calls is the number of
`WithCDN` and `WithObject` calls in it. -/
theorem length_flatMap_producers {σ : Type} (p q : ArvancloudCollector σ)
    (calls : List OptionCall) :
    (calls.flatMap (OptionCall.producers p q)).length = calls.countP OptionCall.enables := by
  induction calls with
  | nil => rfl
  | cons a l ih =>
    cases a <;>
      simp [List.flatMap_cons, OptionCall.producers, OptionCall.enables, ih]

/-- C8: `NewCollector` returns a nil error and a collector whose token is
`cfg.Token` and whose producer list is exactly what the enablement options
append, in argument order: the list is empty without options, appending a
`WithCDN` or `WithObject` option to any option sequence appends exactly one
producer at the end and keeps the earlier entries, appending `WithTimeout`
changes nothing in the list, and the length is the number of `WithCDN` and
`WithObject` options. -/
theorem NewCollector_producers {σ : Type} (newCDNCollector newObjectCollector : ArvancloudCollector σ)
    (cfg : config.Config) (calls : List OptionCall) :
    (NewCollector cfg (calls.map (OptionCall.eval newCDNCollector newObjectCollector))).2 = none ∧
    (NewCollector cfg (calls.map (OptionCall.eval newCDNCollector newObjectCollector))).1.token
      = cfg.Token ∧
    (NewCollector cfg ([] : List (Option σ))).1.collectors = [] ∧
    (NewCollector cfg (calls.map (OptionCall.eval newCDNCollector newObjectCollector))).1.collectors
      = calls.flatMap (OptionCall.producers newCDNCollector newObjectCollector) ∧
    (NewCollector cfg
        (calls.map (OptionCall.eval newCDNCollector newObjectCollector))).1.collectors.length
      = calls.countP OptionCall.enables ∧
    (∀ opts : List (Option σ),
      (NewCollector cfg (opts ++ [WithCDN newCDNCollector])).1.collectors
        = (NewCollector cfg opts).1.collectors ++ [newCDNCollector] ∧
      (NewCollector cfg (opts ++ [WithObject newObjectCollector])).1.collectors
        = (NewCollector cfg opts).1.collectors ++ [newObjectCollector] ∧
      ∀ d : Int, (NewCollector cfg (opts ++ [WithTimeout d])).1.collectors
        = (NewCollector cfg opts).1.collectors) := by
  have h := foldl_optionCalls newCDNCollector newObjectCollector calls
    { collectors := [], timeout := DefaultTimeout, token := cfg.Token }
  refine ⟨rfl, ?_, rfl, ?_, ?_, ?_⟩
  · simpa [NewCollector] using h.2.1
  · simpa [NewCollector] using h.1
  · have h1 : (NewCollector cfg
        (calls.map (OptionCall.eval newCDNCollector newObjectCollector))).1.collectors
        = calls.flatMap (OptionCall.producers newCDNCollector newObjectCollector) := by
      simpa [NewCollector] using h.1
    rw [h1]
    exact length_flatMap_producers newCDNCollector newObjectCollector calls
  · intro opts
    refine ⟨?_, ?_, ?_⟩
    · simp [NewCollector, List.foldl_append, WithCDN]
    · simp [NewCollector, List.foldl_append, WithObject]
    · intro d
      simp [NewCollector, List.foldl_append, WithTimeout]

/-! ### The producer loop of a pass -/

/-- While the producers return nil the loop goes on: after a prefix `pre` of
succeeding producers it continues with the rest, from the state in which each
producer of `pre` has been given one context and invoked once, in order. -/
theorem collectLoop_append_of_allSucceed {σ : Type} (ch : Chan)
    (pre rest : List (ArvancloudCollector σ)) :
    ∀ (i : Nat) (s : State σ), allSucceed { ch := ch, token := s.c.token } pre s.env →
      collectLoop ch i (pre ++ rest) s =
        collectLoop ch (i + pre.length) rest
          { s with
            env := envAfter { ch := ch, token := s.c.token } pre s.env
            contexts := s.contexts ++
              List.replicate pre.length { ch := ch, token := s.c.token }
            calls := s.calls ++
              (List.range' i pre.length).map
                (fun j => (j, ({ ch := ch, token := s.c.token } : collectorContext)))
            metrics := Function.update s.metrics ch
              (s.metrics ch ++ samplesOf { ch := ch, token := s.c.token } pre s.env) } := by
  induction pre with
  | nil =>
    intro i s _
    cases s
    simp [envAfter, samplesOf]
  | cons co pre ih =>
    intro i s h
    obtain ⟨h1, h2⟩ := h
    cases s with
    | mk c env metrics descs contexts calls =>
      simp only [List.cons_append, collectLoop, h1, List.append_eq]
      rw [ih]
      · simp [sendMetrics, envAfter, samplesOf, List.replicate_succ, List.range'_succ,
          Nat.add_assoc, Nat.add_comm 1]
      · simpa [sendMetrics] using h2

/-- Whatever the producers return, the loop leaves the collector and the
descriptor channels alone, only appends to the sink `ch`, and for some number
`m` of producers (all of them when the loop returns nil, at least one when it
returns an error) it has evaluated `m` context literals, all equal to
`{ch, c.token}`, and invoked the first `m` producers, in order, each with that
context. -/
theorem collectLoop_frame {σ : Type} (ch : Chan) (cs : List (ArvancloudCollector σ)) :
    ∀ (i : Nat) (s : State σ),
      (collectLoop ch i cs s).2.c = s.c ∧
      (collectLoop ch i cs s).2.descs = s.descs ∧
      (∀ ch2, ch2 ≠ ch → (collectLoop ch i cs s).2.metrics ch2 = s.metrics ch2) ∧
      (∃ ps, (collectLoop ch i cs s).2.metrics ch = s.metrics ch ++ ps) ∧
      ∃ m, m ≤ cs.length ∧
        ((collectLoop ch i cs s).1 = none → m = cs.length) ∧
        ((collectLoop ch i cs s).1 ≠ none → 0 < m) ∧
        (collectLoop ch i cs s).2.contexts =
          s.contexts ++ List.replicate m { ch := ch, token := s.c.token } ∧
        (collectLoop ch i cs s).2.calls =
          s.calls ++ (List.range' i m).map
            (fun j => (j, ({ ch := ch, token := s.c.token } : collectorContext))) := by
  induction cs with
  | nil =>
    intro i s
    exact ⟨rfl, rfl, fun _ _ => rfl, ⟨[], by simp [collectLoop]⟩, 0, by simp [collectLoop]⟩
  | cons co cs ih =>
    intro i s
    cases s with
    | mk c env metrics descs contexts calls =>
      cases h : (co.collect { ch := ch, token := c.token } env).err with
      | some e =>
        simp only [collectLoop, h]
        refine ⟨rfl, rfl, ?_,
          ⟨(co.collect { ch := ch, token := c.token } env).sent, ?_⟩, 1, ?_⟩
        · intro ch2 h2
          simp [sendMetrics, Function.update_noteq h2]
        · simp [sendMetrics]
        · simp [sendMetrics]
      | none =>
        simp only [collectLoop, h]
        obtain ⟨h1, h2, h3, ⟨ps, h4⟩, m, h5, h6, _, h8, h9⟩ := ih (i + 1)
          (sendMetrics
            { c := c, env := (co.collect { ch := ch, token := c.token } env).env,
              metrics := metrics, descs := descs,
              contexts := contexts ++ [{ ch := ch, token := c.token }],
              calls := calls ++ [(i, { ch := ch, token := c.token })] }
            ch (co.collect { ch := ch, token := c.token } env).sent)
        refine ⟨h1, h2, ?_, ⟨(co.collect { ch := ch, token := c.token } env).sent ++ ps, ?_⟩,
          m + 1, ?_, ?_, ?_, ?_, ?_⟩
        · intro ch2 hne
          rw [h3 ch2 hne]
          simp [sendMetrics, Function.update_noteq hne]
        · rw [h4]
          simp [sendMetrics]
        · simpa using h5
        · intro hn
          simp [h6 hn]
        · intro _
          exact Nat.succ_pos m
        · rw [h8]
          simp [sendMetrics, List.replicate_succ]
        · rw [h9]
          simp [sendMetrics, List.range'_succ]

/-! ### One collection pass -/

/-- C1: when the producers before the `k`-th return nil and the `k`-th returns an
error (the producer list is `pre ++ co :: post`, `k = pre.length + 1`), one
call of `Collect` invokes the producers `1..k` in registration order and no
other (the environment it leaves is the one the `k`-th producer left, read
once more by the clock), `connectAndCollect` returns the error, and the sink
receives, in order, the samples of the producers `1..k-1`, the samples the
`k`-th sent before failing, the duration sample, and one success sample of
value 0. -/
theorem Collect_short_circuit {σ : Type} (now : σ → Int × σ) (ch : Chan) (s : State σ)
    (pre post : List (ArvancloudCollector σ)) (co : ArvancloudCollector σ) (e : String)
    (hcs : s.c.collectors = pre ++ co :: post)
    (hpre : allSucceed { ch := ch, token := s.c.token } pre (now s.env).2)
    (hfail : (co.collect { ch := ch, token := s.c.token }
      (envAfter { ch := ch, token := s.c.token } pre (now s.env).2)).err = some e) :
    (connectAndCollect ch { s with env := (now s.env).2 }).1 = some e ∧
    (Collect now ch s).calls =
      s.calls ++ (List.range (pre.length + 1)).map
        (fun j => (j, ({ ch := ch, token := s.c.token } : collectorContext))) ∧
    (Collect now ch s).env =
      (now (co.collect { ch := ch, token := s.c.token }
        (envAfter { ch := ch, token := s.c.token } pre (now s.env).2)).env).2 ∧
    (Collect now ch s).metrics ch =
      s.metrics ch ++ samplesOf { ch := ch, token := s.c.token } pre (now s.env).2 ++
        (co.collect { ch := ch, token := s.c.token }
          (envAfter { ch := ch, token := s.c.token } pre (now s.env).2)).sent ++
        [MustNewConstMetric scrapeDurationDesc ValueType.GaugeValue
            (Seconds ((now (co.collect { ch := ch, token := s.c.token }
              (envAfter { ch := ch, token := s.c.token } pre (now s.env).2)).env).1
              - (now s.env).1)) [],
          MustNewConstMetric scrapeSuccessDesc ValueType.GaugeValue 0 []] := by
  have hloop := collectLoop_append_of_allSucceed ch pre (co :: post) 0
    { s with env := (now s.env).2 } hpre
  cases s with
  | mk c env metrics descs contexts calls =>
    simp only at hcs hfail hloop
    simp only [Collect, startCollect, connectAndCollect, hcs, hloop, collectLoop, hfail]
    refine ⟨trivial, ?_, ?_, ?_⟩
    · simp [sendMetrics, List.range_succ, List.range_eq_range']
    · simp [sendMetrics]
    · simp [sendMetrics]

/-- C1 on three producers of which the second fails: the first two are invoked,
the third is not, and the sink holds the sample of the first, the sample of
the second, the duration and a success of 0. -/
theorem Collect_short_circuit_witness :
    (demoState [demoOk "a", demoFail "b", demoOk "c"]).c.collectors =
      [demoOk "a"] ++ demoFail "b" :: [demoOk "c"] ∧
    allSucceed { ch := 0, token := "tok" } [demoOk "a"] (demoNow 0).2 ∧
    ((demoFail "b").collect { ch := 0, token := "tok" }
      (envAfter { ch := 0, token := "tok" } [demoOk "a"] (demoNow 0).2)).err
      = some "upstream error" ∧
    (Collect demoNow 0 (demoState [demoOk "a", demoFail "b", demoOk "c"])).calls =
      [(0, { ch := 0, token := "tok" }), (1, { ch := 0, token := "tok" })] ∧
    (Collect demoNow 0 (demoState [demoOk "a", demoFail "b", demoOk "c"])).metrics 0 =
      [demoSample "a" 1, demoSample "b" 2,
        MustNewConstMetric scrapeDurationDesc ValueType.GaugeValue 3 [],
        MustNewConstMetric scrapeSuccessDesc ValueType.GaugeValue 0 []] := by
  have h := Collect_short_circuit demoNow 0 (demoState [demoOk "a", demoFail "b", demoOk "c"])
    [demoOk "a"] [demoOk "c"] (demoFail "b") "upstream error" rfl ⟨rfl, trivial⟩ rfl
  refine ⟨rfl, ⟨rfl, trivial⟩, rfl, ?_, ?_⟩
  · simpa [demoState] using h.2.1
  · have h4 := h.2.2.2
    rw [h4]
    norm_num [demoState, demoNow, demoOk, demoFail, samplesOf, envAfter, Seconds, Second,
      MustNewConstMetric]

/-- C2: when every producer returns nil, one call of `Collect` invokes every
producer exactly once in registration order, `connectAndCollect` returns nil,
and the sink receives the samples of all producers in that order, then the
duration sample, then one success sample of value 1; with no producer the sink
receives the two meta-metric samples only and no producer is invoked. -/
theorem Collect_all_succeed {σ : Type} (now : σ → Int × σ) (ch : Chan) (s : State σ)
    (hall : allSucceed { ch := ch, token := s.c.token } s.c.collectors (now s.env).2) :
    (connectAndCollect ch { s with env := (now s.env).2 }).1 = none ∧
    (Collect now ch s).calls =
      s.calls ++ (List.range s.c.collectors.length).map
        (fun j => (j, ({ ch := ch, token := s.c.token } : collectorContext))) ∧
    (Collect now ch s).metrics ch =
      s.metrics ch ++ samplesOf { ch := ch, token := s.c.token } s.c.collectors (now s.env).2 ++
        [MustNewConstMetric scrapeDurationDesc ValueType.GaugeValue
            (Seconds ((now (envAfter { ch := ch, token := s.c.token } s.c.collectors
              (now s.env).2)).1 - (now s.env).1)) [],
          MustNewConstMetric scrapeSuccessDesc ValueType.GaugeValue 1 []] ∧
    (s.c.collectors = [] →
      (Collect now ch s).calls = s.calls ∧
      (Collect now ch s).metrics ch =
        s.metrics ch ++
          [MustNewConstMetric scrapeDurationDesc ValueType.GaugeValue
              (Seconds ((now (now s.env).2).1 - (now s.env).1)) [],
            MustNewConstMetric scrapeSuccessDesc ValueType.GaugeValue 1 []]) := by
  have hloop := collectLoop_append_of_allSucceed ch s.c.collectors [] 0
    { s with env := (now s.env).2 } hall
  cases s with
  | mk c env metrics descs contexts calls =>
    simp only [List.append_nil] at hloop
    simp only [Collect, startCollect, connectAndCollect, hloop, collectLoop]
    refine ⟨trivial, ?_, ?_, ?_⟩
    · simp [sendMetrics, List.range_eq_range']
    · simp [sendMetrics]
    · intro hnil
      simp [sendMetrics, samplesOf, envAfter, hnil]

/-- C2 on two succeeding producers, and on no producer. -/
theorem Collect_all_succeed_witness :
    allSucceed { ch := 0, token := (demoState [demoOk "a", demoOk "b"]).c.token }
      (demoState [demoOk "a", demoOk "b"]).c.collectors
      (demoNow (demoState [demoOk "a", demoOk "b"]).env).2 ∧
    (Collect demoNow 0 (demoState [demoOk "a", demoOk "b"])).calls =
      [(0, { ch := 0, token := "tok" }), (1, { ch := 0, token := "tok" })] ∧
    (Collect demoNow 0 (demoState [demoOk "a", demoOk "b"])).metrics 0 =
      [demoSample "a" 1, demoSample "b" 2,
        MustNewConstMetric scrapeDurationDesc ValueType.GaugeValue 3 [],
        MustNewConstMetric scrapeSuccessDesc ValueType.GaugeValue 1 []] ∧
    (demoState []).c.collectors = [] ∧
    (Collect demoNow 0 (demoState [])).metrics 0 =
      [MustNewConstMetric scrapeDurationDesc ValueType.GaugeValue 1 [],
        MustNewConstMetric scrapeSuccessDesc ValueType.GaugeValue 1 []] := by
  have h := Collect_all_succeed demoNow 0 (demoState [demoOk "a", demoOk "b"])
    ⟨rfl, rfl, trivial⟩
  have h0 := (Collect_all_succeed demoNow 0 (demoState []) trivial).2.2.2 rfl
  refine ⟨⟨rfl, rfl, trivial⟩, ?_, ?_, rfl, ?_⟩
  · simpa [demoState] using h.2.1
  · rw [h.2.2.1]
    norm_num [demoState, demoNow, demoOk, samplesOf, envAfter, Seconds, Second,
      MustNewConstMetric]
  · rw [h0.2]
    norm_num [demoState, demoNow, Seconds, Second, MustNewConstMetric]

/-- C3 as stated fails: with one producer that itself sends a sample for
`scrapeDurationDesc` and a sample for `scrapeSuccessDesc`, the sink receives in
one call of `Collect` two samples for each of the two descriptors, not one. -/
theorem Collect_meta_metrics_not_once :
    ((Collect demoNow 0 (demoState [demoMeta])).metrics 0).length = 4 ∧
    ((Collect demoNow 0 (demoState [demoMeta])).metrics 0).map (fun x => x.desc) =
      [scrapeDurationDesc, scrapeSuccessDesc, scrapeDurationDesc, scrapeSuccessDesc] ∧
    ((Collect demoNow 0 (demoState [demoMeta])).metrics 0).countP
      (fun x => decide (x.desc = scrapeDurationDesc)) = 2 ∧
    ((Collect demoNow 0 (demoState [demoMeta])).metrics 0).countP
      (fun x => decide (x.desc = scrapeSuccessDesc)) = 2 ∧
    ((Collect demoNow 0 (demoState [demoMeta])).metrics 0).countP
      (fun x => decide (x.desc = scrapeDurationDesc)) ≠ 1 := by
  decide

/-- C3, amended: whatever the producers do, `Collect` itself sends, after the
producer loop, exactly two samples on the sink, the last two of the pass:
first the duration sample for `scrapeDurationDesc`, then the success sample
for `scrapeSuccessDesc`, both gauges without label values and for two
different descriptors; the success value is 1 exactly when `connectAndCollect`
returned nil and 0 exactly when it returned an error. The loop only appended
the producers' samples `ps` to what the sink held, so the samples of the pass
are `ps` followed by these two, and when no producer sample carries a
meta-metric descriptor the pass holds exactly one sample of each; no other
sink is written by the pass. -/
theorem Collect_meta_metrics {σ : Type} (now : σ → Int × σ) (ch : Chan) (s : State σ) :
    ∃ v : ℚ,
      (Collect now ch s).metrics ch =
        (connectAndCollect ch { s with env := (now s.env).2 }).2.metrics ch ++
          [MustNewConstMetric scrapeDurationDesc ValueType.GaugeValue
              (Seconds ((now (connectAndCollect ch { s with env := (now s.env).2 }).2.env).1
                - (now s.env).1)) [],
            MustNewConstMetric scrapeSuccessDesc ValueType.GaugeValue v []] ∧
      (v = 1 ↔ (connectAndCollect ch { s with env := (now s.env).2 }).1 = none) ∧
      (v = 0 ↔ (connectAndCollect ch { s with env := (now s.env).2 }).1 ≠ none) ∧
      scrapeDurationDesc ≠ scrapeSuccessDesc ∧
      (∃ ps, (connectAndCollect ch { s with env := (now s.env).2 }).2.metrics ch =
          s.metrics ch ++ ps ∧
        ((∀ x ∈ ps, x.desc ≠ scrapeDurationDesc ∧ x.desc ≠ scrapeSuccessDesc) →
          (((Collect now ch s).metrics ch).drop (s.metrics ch).length).countP
              (fun x => decide (x.desc = scrapeDurationDesc)) = 1 ∧
          (((Collect now ch s).metrics ch).drop (s.metrics ch).length).countP
              (fun x => decide (x.desc = scrapeSuccessDesc)) = 1)) ∧
      (∀ ch2, ch2 ≠ ch → (Collect now ch s).metrics ch2 = s.metrics ch2) := by
  obtain ⟨_, _, hother, ⟨ps, hps⟩, _⟩ :=
    collectLoop_frame ch s.c.collectors 0 { s with env := (now s.env).2 }
  have hlast : (Collect now ch s).metrics ch =
      (connectAndCollect ch { s with env := (now s.env).2 }).2.metrics ch ++
        [MustNewConstMetric scrapeDurationDesc ValueType.GaugeValue
            (Seconds ((now (connectAndCollect ch { s with env := (now s.env).2 }).2.env).1
              - (now s.env).1)) [],
          MustNewConstMetric scrapeSuccessDesc ValueType.GaugeValue
            (if (connectAndCollect ch { s with env := (now s.env).2 }).1 ≠ none then 0 else 1)
            []] := by
    simp [Collect, startCollect, sendMetrics]
  have hps2 : (connectAndCollect ch { s with env := (now s.env).2 }).2.metrics ch =
      s.metrics ch ++ ps := hps
  refine ⟨if (connectAndCollect ch { s with env := (now s.env).2 }).1 ≠ none then 0 else 1,
    hlast, ?_, ?_, by decide, ⟨ps, hps2, ?_⟩, ?_⟩
  · by_cases h : (connectAndCollect ch { s with env := (now s.env).2 }).1 = none <;> simp [h]
  · by_cases h : (connectAndCollect ch { s with env := (now s.env).2 }).1 = none <;> simp [h]
  · intro hmeta
    have hd : ps.countP (fun x => decide (x.desc = scrapeDurationDesc)) = 0 := by
      rw [List.countP_eq_zero]
      intro x hx
      simpa using (hmeta x hx).1
    have hs : ps.countP (fun x => decide (x.desc = scrapeSuccessDesc)) = 0 := by
      rw [List.countP_eq_zero]
      intro x hx
      simpa using (hmeta x hx).2
    have hne : scrapeDurationDesc ≠ scrapeSuccessDesc := by decide
    rw [hlast, hps2, List.append_assoc, List.drop_left, List.countP_append, List.countP_append,
      hd, hs]
    refine ⟨?_, ?_⟩
    · simp [List.countP_cons, MustNewConstMetric, hne.symm]
    · simp [List.countP_cons, MustNewConstMetric, hne]
  · intro ch2 hne
    have h2 := hother ch2 hne
    simp only [connectAndCollect] at h2 ⊢
    simp [Collect, startCollect, connectAndCollect, sendMetrics, Function.update_noteq hne, h2]

/-- C3 on one failing producer: the pass ends with the duration and a success of
0, it holds one sample of each meta-metric, and the other sink 1 stays empty. -/
theorem Collect_meta_metrics_witness :
    (connectAndCollect 0
      { demoState [demoFail "b"] with env := (demoNow (demoState [demoFail "b"]).env).2 }).1
      ≠ none ∧
    (1 : Chan) ≠ 0 ∧
    (∀ x ∈ [demoSample "b" 1], x.desc ≠ scrapeDurationDesc ∧ x.desc ≠ scrapeSuccessDesc) ∧
    (Collect demoNow 0 (demoState [demoFail "b"])).metrics 0 =
      [demoSample "b" 1,
        MustNewConstMetric scrapeDurationDesc ValueType.GaugeValue 2 [],
        MustNewConstMetric scrapeSuccessDesc ValueType.GaugeValue 0 []] ∧
    (((Collect demoNow 0 (demoState [demoFail "b"])).metrics 0).drop
        ((demoState [demoFail "b"]).metrics 0).length).countP
      (fun x => decide (x.desc = scrapeDurationDesc)) = 1 ∧
    (Collect demoNow 0 (demoState [demoFail "b"])).metrics 1 = [] := by
  obtain ⟨v, h1, _, h3, _, ⟨ps, h5, h5c⟩, h6⟩ :=
    Collect_meta_metrics demoNow 0 (demoState [demoFail "b"])
  have herr : (connectAndCollect 0
      { demoState [demoFail "b"] with env := (demoNow (demoState [demoFail "b"]).env).2 }).1
      ≠ none := by decide
  have hv : v = 0 := h3.mpr herr
  have hloop : (connectAndCollect 0
      { demoState [demoFail "b"] with
        env := (demoNow (demoState [demoFail "b"]).env).2 }).2.metrics 0 =
      [demoSample "b" 1] := by
    norm_num [connectAndCollect, collectLoop, sendMetrics, demoState, demoNow, demoFail]
  have hps : ps = [demoSample "b" 1] := by
    rw [hloop] at h5
    simpa [demoState] using h5.symm
  have hmeta : ∀ x ∈ [demoSample "b" 1],
      x.desc ≠ scrapeDurationDesc ∧ x.desc ≠ scrapeSuccessDesc := by
    intro x hx
    rw [List.mem_singleton] at hx
    subst hx
    exact ⟨by decide, by decide⟩
  refine ⟨herr, by decide, hmeta, ?_, ?_, ?_⟩
  · rw [h1, hv, hloop]
    norm_num [connectAndCollect, collectLoop, sendMetrics, demoState, demoNow, demoFail,
      Seconds, Second, MustNewConstMetric]
  · exact (h5c (hps ▸ hmeta)).1
  · simpa [demoState] using h6 1 (by decide)

/-- C7 as stated fails: with two succeeding producers one call of `Collect`
evaluates the context literal twice, and with no producer not at all. -/
theorem Collect_contexts_not_one :
    (Collect demoNow 0 (demoState [demoOk "a", demoOk "b"])).contexts =
      [{ ch := 0, token := "tok" }, { ch := 0, token := "tok" }] ∧
    (Collect demoNow 0 (demoState [demoOk "a", demoOk "b"])).contexts.length ≠ 1 ∧
    (Collect demoNow 0 (demoState [])).contexts = [] ∧
    (Collect demoNow 0 (demoState [])).contexts.length ≠ 1 := by
  decide

/-- A pass evaluates one context literal per producer it invokes: for some `m`
(all the producers when the loop returns nil, at least one when it returns an
error) the pass adds `m` contexts `{ch, c.token}` and the invocations of the
first `m` producers, in order, each with that context. -/
theorem Collect_invocations {σ : Type} (now : σ → Int × σ) (ch : Chan) (s : State σ) :
    ∃ m, m ≤ s.c.collectors.length ∧
      ((connectAndCollect ch { s with env := (now s.env).2 }).1 = none →
        m = s.c.collectors.length) ∧
      ((connectAndCollect ch { s with env := (now s.env).2 }).1 ≠ none → 0 < m) ∧
      (Collect now ch s).contexts =
        s.contexts ++ List.replicate m { ch := ch, token := s.c.token } ∧
      (Collect now ch s).calls =
        s.calls ++ (List.range m).map
          (fun j => (j, ({ ch := ch, token := s.c.token } : collectorContext))) := by
  obtain ⟨_, _, _, _, m, h1, h2, h3, h4, h5⟩ :=
    collectLoop_frame ch s.c.collectors 0 { s with env := (now s.env).2 }
  refine ⟨m, h1, h2, h3, ?_, ?_⟩
  · simpa [Collect, startCollect, connectAndCollect, sendMetrics] using h4
  · simpa [Collect, startCollect, connectAndCollect, sendMetrics, List.range_eq_range'] using h5

/-- C7, amended: one `collectorContext` is constructed per invoked producer, not
one per pass. When every producer returns nil a call of `Collect` constructs
exactly `n` contexts, `n` the number of producers (none without producers);
when the producers before the `k`-th return nil and the `k`-th returns an
error (the producer list is `pre ++ co :: post`, `k = pre.length + 1`) it
constructs exactly `k`. In both cases the producers invoked are the first `n`,
respectively `k`, in order; and always every context constructed has the
value `{ch, c.token}` and the contexts passed to the producers invoked are, in
order, the contexts constructed. -/
theorem Collect_contexts_per_invocation {σ : Type} (now : σ → Int × σ) (ch : Chan)
    (s : State σ) :
    (allSucceed { ch := ch, token := s.c.token } s.c.collectors (now s.env).2 →
      (Collect now ch s).contexts =
        s.contexts ++ List.replicate s.c.collectors.length { ch := ch, token := s.c.token } ∧
      (Collect now ch s).calls =
        s.calls ++ (List.range s.c.collectors.length).map
          (fun j => (j, ({ ch := ch, token := s.c.token } : collectorContext)))) ∧
    (s.c.collectors = [] →
      (Collect now ch s).contexts = s.contexts ∧ (Collect now ch s).calls = s.calls) ∧
    (∀ (pre post : List (ArvancloudCollector σ)) (co : ArvancloudCollector σ) (e : String),
      s.c.collectors = pre ++ co :: post →
      allSucceed { ch := ch, token := s.c.token } pre (now s.env).2 →
      (co.collect { ch := ch, token := s.c.token }
        (envAfter { ch := ch, token := s.c.token } pre (now s.env).2)).err = some e →
      (Collect now ch s).contexts =
        s.contexts ++ List.replicate (pre.length + 1) { ch := ch, token := s.c.token } ∧
      (Collect now ch s).calls =
        s.calls ++ (List.range (pre.length + 1)).map
          (fun j => (j, ({ ch := ch, token := s.c.token } : collectorContext)))) ∧
    (∃ m, m ≤ s.c.collectors.length ∧
      (Collect now ch s).contexts =
        s.contexts ++ List.replicate m { ch := ch, token := s.c.token } ∧
      (Collect now ch s).calls =
        s.calls ++ (List.range m).map
          (fun j => (j, ({ ch := ch, token := s.c.token } : collectorContext)))) ∧
    ((Collect now ch s).calls.drop s.calls.length).map Prod.snd =
      (Collect now ch s).contexts.drop s.contexts.length := by
  obtain ⟨m, h1, _, _, h4, h5⟩ := Collect_invocations now ch s
  have hall : allSucceed { ch := ch, token := s.c.token } s.c.collectors (now s.env).2 →
      (Collect now ch s).contexts =
        s.contexts ++ List.replicate s.c.collectors.length { ch := ch, token := s.c.token } ∧
      (Collect now ch s).calls =
        s.calls ++ (List.range s.c.collectors.length).map
          (fun j => (j, ({ ch := ch, token := s.c.token } : collectorContext))) := by
    intro hsucc
    have hloop := collectLoop_append_of_allSucceed ch s.c.collectors [] 0
      { s with env := (now s.env).2 } hsucc
    simp only [List.append_nil] at hloop
    simp only [Collect, startCollect, connectAndCollect, hloop, collectLoop]
    simp [sendMetrics, List.range_eq_range']
  refine ⟨hall, ?_, ?_, ⟨m, h1, h4, h5⟩, ?_⟩
  · intro hnil
    have h0 : allSucceed { ch := ch, token := s.c.token } s.c.collectors (now s.env).2 := by
      rw [hnil]
      trivial
    have h := hall h0
    rw [hnil] at h
    simpa using h
  · intro pre post co e hcs hpre hfail
    have hloop := collectLoop_append_of_allSucceed ch pre (co :: post) 0
      { s with env := (now s.env).2 } hpre
    cases s with
    | mk c env metrics descs contexts calls =>
      simp only at hcs hfail hloop
      simp only [Collect, startCollect, connectAndCollect, hcs, hloop, collectLoop, hfail]
      refine ⟨?_, ?_⟩
      · simp [sendMetrics, List.replicate_succ', List.append_assoc]
      · simp [sendMetrics, List.range_succ, List.range_eq_range']
  · rw [h4, h5]
    simp [List.map_map, Function.comp_def, List.eq_replicate_iff]

/-- The amended C7 on three producers of which the second fails: exactly two
contexts are constructed, for the two producers invoked; on two succeeding
producers exactly two; and on no producer none. -/
theorem Collect_contexts_per_invocation_witness :
    (demoState [demoOk "a", demoFail "b", demoOk "c"]).c.collectors =
      [demoOk "a"] ++ demoFail "b" :: [demoOk "c"] ∧
    allSucceed { ch := 0, token := "tok" } [demoOk "a"] (demoNow 0).2 ∧
    ((demoFail "b").collect { ch := 0, token := "tok" }
      (envAfter { ch := 0, token := "tok" } [demoOk "a"] (demoNow 0).2)).err
      = some "upstream error" ∧
    (Collect demoNow 0 (demoState [demoOk "a", demoFail "b", demoOk "c"])).contexts =
      [{ ch := 0, token := "tok" }, { ch := 0, token := "tok" }] ∧
    (Collect demoNow 0 (demoState [demoOk "a", demoFail "b", demoOk "c"])).calls =
      [(0, { ch := 0, token := "tok" }), (1, { ch := 0, token := "tok" })] ∧
    allSucceed { ch := 0, token := "tok" } [demoOk "a", demoOk "b"] (demoNow 0).2 ∧
    (Collect demoNow 0 (demoState [demoOk "a", demoOk "b"])).contexts =
      [{ ch := 0, token := "tok" }, { ch := 0, token := "tok" }] ∧
    (demoState []).c.collectors = [] ∧
    (Collect demoNow 0 (demoState [])).contexts = [] := by
  have hfail := (Collect_contexts_per_invocation demoNow 0
    (demoState [demoOk "a", demoFail "b", demoOk "c"])).2.2.1
    [demoOk "a"] [demoOk "c"] (demoFail "b") "upstream error" rfl ⟨rfl, trivial⟩ rfl
  have hok := (Collect_contexts_per_invocation demoNow 0
    (demoState [demoOk "a", demoOk "b"])).1 ⟨rfl, rfl, trivial⟩
  have hnone := (Collect_contexts_per_invocation demoNow 0 (demoState [])).2.1 rfl
  refine ⟨rfl, ⟨rfl, trivial⟩, rfl, ?_, ?_, ⟨rfl, rfl, trivial⟩, ?_, rfl, ?_⟩
  · simpa [demoState] using hfail.1
  · simpa [demoState] using hfail.2
  · simpa [demoState] using hok.1
  · simpa [demoState] using hnone.1

/-! ### `Describe` -/

/-- The loop of `Describe` appends to the descriptor channel `ch` what the
producers describe, in order, and touches nothing else but the environment. -/
theorem describeLoop_frame {σ : Type} (ch : Chan) (cs : List (ArvancloudCollector σ)) :
    ∀ s : State σ,
      (describeLoop ch cs s).c = s.c ∧
      (describeLoop ch cs s).metrics = s.metrics ∧
      (describeLoop ch cs s).contexts = s.contexts ∧
      (describeLoop ch cs s).calls = s.calls ∧
      (describeLoop ch cs s).descs ch = s.descs ch ++ describedBy cs s.env ∧
      ∀ ch2, ch2 ≠ ch → (describeLoop ch cs s).descs ch2 = s.descs ch2 := by
  induction cs with
  | nil =>
    intro s
    simp [describeLoop, describedBy]
  | cons co cs ih =>
    intro s
    obtain ⟨h1, h2, h3, h4, h5, h6⟩ :=
      ih (sendDescs { s with env := (co.describe s.env).2 } ch (co.describe s.env).1)
    simp only [describeLoop, describedBy]
    refine ⟨h1, h2, h3, h4, ?_, ?_⟩
    · rw [h5]
      simp [sendDescs]
    · intro ch2 hne
      rw [h6 ch2 hne]
      simp [sendDescs, Function.update_noteq hne]

/-- When what every producer of `cs` describes does not depend on the
environment, the producers describe, in any environment, the concatenation of
their descriptor lists. -/
theorem describedBy_of_deterministic {σ : Type} (cs : List (ArvancloudCollector σ))
    (hdet : ∀ co ∈ cs, ∀ e e2 : σ, (co.describe e).1 = (co.describe e2).1) (e e0 : σ) :
    describedBy cs e = (cs.map (fun co => (co.describe e0).1)).flatten := by
  induction cs generalizing e with
  | nil => rfl
  | cons co cs ih =>
    have h1 := hdet co (List.mem_cons_self co cs) e e0
    have h2 := ih (fun co2 hmem => hdet co2 (List.mem_cons_of_mem co hmem)) (co.describe e).2
    simp [describedBy, h1, h2]

/-- C4: `Describe` appends to the descriptor sink exactly `scrapeDurationDesc`,
then `scrapeSuccessDesc`, then what each registered producer describes, in
registration order, and writes to no other descriptor sink and to no metric
sink; when what every producer describes does not depend on the environment,
that sequence is the concatenation of the producers' descriptor lists and a
second call of `Describe` appends the identical sequence. -/
theorem Describe_descriptors {σ : Type} (ch : Chan) (s : State σ) :
    (Describe ch s).descs ch =
      s.descs ch ++
        scrapeDurationDesc :: scrapeSuccessDesc :: describedBy s.c.collectors s.env ∧
    (∀ ch2, ch2 ≠ ch → (Describe ch s).descs ch2 = s.descs ch2) ∧
    (Describe ch s).metrics = s.metrics ∧
    ((∀ co ∈ s.c.collectors, ∀ e e2 : σ, (co.describe e).1 = (co.describe e2).1) →
      describedBy s.c.collectors s.env =
        (s.c.collectors.map (fun co => (co.describe s.env).1)).flatten ∧
      (Describe ch (Describe ch s)).descs ch =
        (Describe ch s).descs ch ++
          scrapeDurationDesc :: scrapeSuccessDesc :: describedBy s.c.collectors s.env) := by
  have key : ∀ t : State σ,
      (Describe ch t).c = t.c ∧
      (Describe ch t).metrics = t.metrics ∧
      (Describe ch t).descs ch =
        t.descs ch ++ scrapeDurationDesc :: scrapeSuccessDesc :: describedBy t.c.collectors t.env ∧
      ∀ ch2, ch2 ≠ ch → (Describe ch t).descs ch2 = t.descs ch2 := by
    intro t
    obtain ⟨h1, h2, _, _, h5, h6⟩ := describeLoop_frame ch t.c.collectors
      (sendDescs (sendDescs t ch [scrapeDurationDesc]) ch [scrapeSuccessDesc])
    refine ⟨h1, h2, ?_, ?_⟩
    · simp only [Describe]
      rw [show (sendDescs (sendDescs t ch [scrapeDurationDesc]) ch [scrapeSuccessDesc]).c = t.c
        from rfl, h5]
      simp [sendDescs]
    · intro ch2 hne
      simp only [Describe]
      rw [show (sendDescs (sendDescs t ch [scrapeDurationDesc]) ch [scrapeSuccessDesc]).c = t.c
        from rfl, h6 ch2 hne]
      simp [sendDescs, Function.update_noteq hne]
  obtain ⟨hc, hm, hd, ho⟩ := key s
  refine ⟨hd, ho, hm, ?_⟩
  intro hdet
  refine ⟨describedBy_of_deterministic s.c.collectors hdet s.env s.env, ?_⟩
  obtain ⟨_, _, hd2, _⟩ := key (Describe ch s)
  rw [hd2, hc, describedBy_of_deterministic s.c.collectors hdet (Describe ch s).env s.env,
    describedBy_of_deterministic s.c.collectors hdet s.env s.env]

/-- C4 on two producers that describe one descriptor each. -/
theorem Describe_descriptors_witness :
    (∀ co ∈ (demoState [demoOk "a", demoOk "b"]).c.collectors, ∀ e e2 : Nat,
      (co.describe e).1 = (co.describe e2).1) ∧
    (1 : Chan) ≠ 0 ∧
    (Describe 0 (demoState [demoOk "a", demoOk "b"])).descs 0 =
      [scrapeDurationDesc, scrapeSuccessDesc, NewDesc "a" "demo" [] [], NewDesc "b" "demo" [] []] ∧
    (Describe 0 (demoState [demoOk "a", demoOk "b"])).descs 1 = [] ∧
    (Describe 0 (Describe 0 (demoState [demoOk "a", demoOk "b"]))).descs 0 =
      [scrapeDurationDesc, scrapeSuccessDesc, NewDesc "a" "demo" [] [], NewDesc "b" "demo" [] [],
        scrapeDurationDesc, scrapeSuccessDesc, NewDesc "a" "demo" [] [],
        NewDesc "b" "demo" [] []] := by
  have hdet : ∀ co ∈ (demoState [demoOk "a", demoOk "b"]).c.collectors, ∀ e e2 : Nat,
      (co.describe e).1 = (co.describe e2).1 := by
    intro co hmem e e2
    simp only [demoState, List.mem_cons, List.mem_singleton, List.not_mem_nil, or_false] at hmem
    rcases hmem with rfl | rfl <;> rfl
  obtain ⟨h1, h2, _, h4⟩ := Describe_descriptors 0 (demoState [demoOk "a", demoOk "b"])
  obtain ⟨_, h5⟩ := h4 hdet
  have e1 : (Describe 0 (demoState [demoOk "a", demoOk "b"])).descs 0 =
      [scrapeDurationDesc, scrapeSuccessDesc, NewDesc "a" "demo" [] [],
        NewDesc "b" "demo" [] []] := by
    rw [h1]
    rfl
  refine ⟨hdet, by decide, e1, ?_, ?_⟩
  · simpa [demoState] using h2 1 (by decide)
  · rw [h5, e1]
    rfl

/-! ### The collector is only read, and the timeout is never read -/

/-- C9: for the collector built by `NewCollector cfg opts`, every producer invoked
by a call of `Collect` on the sink `ch` is passed the context `{ch, cfg.Token}`;
and on any state `Collect` and `Describe` leave the collector (token, timeout
and producer list) as it was. -/
theorem Collect_passes_sink_and_token {σ : Type}
    (newCDNCollector newObjectCollector : ArvancloudCollector σ) (cfg : config.Config)
    (calls : List OptionCall) (now : σ → Int × σ) (ch dch : Chan) (s : State σ) :
    (∃ m, (Collect now ch { s with c := (NewCollector cfg
          (calls.map (OptionCall.eval newCDNCollector newObjectCollector))).1 }).calls =
        s.calls ++ (List.range m).map
          (fun j => (j, ({ ch := ch, token := cfg.Token } : collectorContext)))) ∧
    (Collect now ch s).c = s.c ∧
    (Describe dch s).c = s.c := by
  refine ⟨?_, ?_, ?_⟩
  · obtain ⟨m, _, _, _, _, h5⟩ := Collect_invocations now ch
      { s with c := (NewCollector cfg
        (calls.map (OptionCall.eval newCDNCollector newObjectCollector))).1 }
    have ht : (NewCollector cfg
        (calls.map (OptionCall.eval newCDNCollector newObjectCollector))).1.token = cfg.Token := by
      simpa [NewCollector] using (foldl_optionCalls newCDNCollector newObjectCollector calls
        { collectors := [], timeout := DefaultTimeout, token := cfg.Token }).2.1
    refine ⟨m, ?_⟩
    rw [h5]
    simp only [ht]
  · obtain ⟨h1, _⟩ := collectLoop_frame ch s.c.collectors 0 { s with env := (now s.env).2 }
    simpa [Collect, startCollect, connectAndCollect, sendMetrics] using h1
  · obtain ⟨h1, _⟩ := describeLoop_frame dch s.c.collectors
      (sendDescs (sendDescs s dch [scrapeDurationDesc]) dch [scrapeSuccessDesc])
    simpa [Describe, sendDescs] using h1

/-- The producer loop does not read the timeout. -/
theorem collectLoop_setTimeout {σ : Type} (d : Int) (ch : Chan)
    (cs : List (ArvancloudCollector σ)) :
    ∀ (i : Nat) (s : State σ),
      collectLoop ch i cs (s.setTimeout d) =
        ((collectLoop ch i cs s).1, (collectLoop ch i cs s).2.setTimeout d) := by
  induction cs with
  | nil =>
    intro i s
    rfl
  | cons co cs ih =>
    intro i s
    cases h : (co.collect { ch := ch, token := s.c.token } s.env).err with
    | some e =>
      simp only [collectLoop, State.setTimeout, sendMetrics, h]
    | none =>
      have h2 := ih (i + 1)
        (sendMetrics
          { s with
            env := (co.collect { ch := ch, token := s.c.token } s.env).env
            contexts := s.contexts ++ [{ ch := ch, token := s.c.token }]
            calls := s.calls ++ [(i, { ch := ch, token := s.c.token })] }
          ch (co.collect { ch := ch, token := s.c.token } s.env).sent)
      simp only [collectLoop, State.setTimeout, sendMetrics, h] at h2 ⊢
      exact h2

/-- The loop of `Describe` does not read the timeout. -/
theorem describeLoop_setTimeout {σ : Type} (d : Int) (ch : Chan)
    (cs : List (ArvancloudCollector σ)) :
    ∀ s : State σ, describeLoop ch cs (s.setTimeout d) = (describeLoop ch cs s).setTimeout d := by
  induction cs with
  | nil =>
    intro s
    rfl
  | cons co cs ih =>
    intro s
    have h2 := ih (sendDescs { s with env := (co.describe s.env).2 } ch (co.describe s.env).1)
    simp only [describeLoop, State.setTimeout, sendDescs] at h2 ⊢
    exact h2

/-- C10: the timeout is stored and nothing more. `NewCollector` stores
`DefaultTimeout`, five seconds, unless a `WithTimeout` option is given, and
then the `d` of the last one; the `WithTimeout` options change neither the
token nor the producer list; and replacing the stored timeout of a collector
by any `d` changes nothing in what `Describe` and `Collect` do: the same
descriptors and samples are sent, the same producers are invoked in the same
order with the same contexts, `connectAndCollect` returns the same error and
the environment is left the same. -/
theorem timeout_stored_not_enforced {σ : Type}
    (newCDNCollector newObjectCollector : ArvancloudCollector σ) (cfg : config.Config)
    (calls later : List OptionCall) (now : σ → Int × σ) (ch : Chan) (s : State σ) (d : Int) :
    DefaultTimeout = 5 * 1000000000 ∧
    (NewCollector cfg
        (calls.map (OptionCall.eval newCDNCollector newObjectCollector))).1.timeout =
      ((calls.flatMap OptionCall.timeouts).getLast?).getD DefaultTimeout ∧
    (NewCollector cfg ((calls.filter OptionCall.enables).map
        (OptionCall.eval newCDNCollector newObjectCollector))).1.timeout = DefaultTimeout ∧
    (NewCollector cfg ((calls ++ OptionCall.WithTimeout d :: later.filter OptionCall.enables).map
        (OptionCall.eval newCDNCollector newObjectCollector))).1.timeout = d ∧
    (NewCollector cfg
        (calls.map (OptionCall.eval newCDNCollector newObjectCollector))).1.token =
      (NewCollector cfg ((calls.filter OptionCall.enables).map
        (OptionCall.eval newCDNCollector newObjectCollector))).1.token ∧
    (NewCollector cfg
        (calls.map (OptionCall.eval newCDNCollector newObjectCollector))).1.collectors =
      (NewCollector cfg ((calls.filter OptionCall.enables).map
        (OptionCall.eval newCDNCollector newObjectCollector))).1.collectors ∧
    Describe ch (s.setTimeout d) = (Describe ch s).setTimeout d ∧
    Collect now ch (s.setTimeout d) = (Collect now ch s).setTimeout d ∧
    (connectAndCollect ch (s.setTimeout d)).1 = (connectAndCollect ch s).1 ∧
    (Describe ch (s.setTimeout d)).descs = (Describe ch s).descs ∧
    (Collect now ch (s.setTimeout d)).calls = (Collect now ch s).calls ∧
    (Collect now ch (s.setTimeout d)).metrics = (Collect now ch s).metrics ∧
    (Collect now ch (s.setTimeout d)).env = (Collect now ch s).env := by
  have hnone : ∀ l : List OptionCall,
      (l.filter OptionCall.enables).flatMap OptionCall.timeouts = [] := by
    intro l
    induction l with
    | nil => rfl
    | cons a l ih => cases a <;> simp [List.filter_cons, OptionCall.enables, OptionCall.timeouts, ih]
  have hsame : ∀ l : List OptionCall,
      (l.filter OptionCall.enables).flatMap
          (OptionCall.producers newCDNCollector newObjectCollector) =
        l.flatMap (OptionCall.producers newCDNCollector newObjectCollector) := by
    intro l
    induction l with
    | nil => rfl
    | cons a l ih =>
      cases a <;> simp [List.filter_cons, OptionCall.enables, OptionCall.producers, ih]
  have hf := fun l => foldl_optionCalls newCDNCollector newObjectCollector l
    { collectors := [], timeout := DefaultTimeout, token := cfg.Token }
  have hD : Describe ch (s.setTimeout d) = (Describe ch s).setTimeout d := by
    have h := describeLoop_setTimeout d ch s.c.collectors
      (sendDescs (sendDescs s ch [scrapeDurationDesc]) ch [scrapeSuccessDesc])
    simpa [Describe, State.setTimeout, sendDescs] using h
  have hL := collectLoop_setTimeout d ch s.c.collectors 0 { s with env := (now s.env).2 }
  have hL0 := collectLoop_setTimeout d ch s.c.collectors 0 s
  have hC : Collect now ch (s.setTimeout d) = (Collect now ch s).setTimeout d := by
    simp only [State.setTimeout] at hL
    simp only [Collect, startCollect, connectAndCollect, State.setTimeout, sendMetrics, hL]
  refine ⟨by decide, ?_, ?_, ?_, ?_, ?_, hD, hC, ?_, ?_, ?_, ?_, ?_⟩
  · simpa [NewCollector] using (hf calls).2.2
  · have h := (hf (calls.filter OptionCall.enables)).2.2
    rw [hnone] at h
    simpa [NewCollector] using h
  · have h := (hf (calls ++ OptionCall.WithTimeout d :: later.filter OptionCall.enables)).2.2
    rw [List.flatMap_append, List.flatMap_cons, hnone] at h
    simpa [NewCollector, OptionCall.timeouts] using h
  · have h1 := (hf calls).2.1
    have h2 := (hf (calls.filter OptionCall.enables)).2.1
    simp only [NewCollector]
    rw [h1, h2]
  · have h1 := (hf calls).1
    have h2 := (hf (calls.filter OptionCall.enables)).1
    simp only [NewCollector]
    rw [h1, h2, hsame]
  · simp only [connectAndCollect]
    simpa [State.setTimeout] using congrArg Prod.fst hL0
  · rw [hD]
    rfl
  · rw [hC]
    rfl
  · rw [hC]
    rfl
  · rw [hC]
    rfl

/-- C5: the fully-qualified names of the two meta-metric descriptors are exactly
`arvancloud_scrape_collector_duration_seconds` and
`arvancloud_scrape_collector_success`, they are what `BuildFQName` gives for
namespace `arvancloud` and subsystem `scrape`, and both descriptors have an
empty label-name list. -/
theorem meta_descriptor_names :
    scrapeDurationDesc.fqName = "arvancloud_scrape_collector_duration_seconds" ∧
    scrapeSuccessDesc.fqName = "arvancloud_scrape_collector_success" ∧
    metricNamespace = "arvancloud" ∧
    scrapeDurationDesc.fqName =
      BuildFQName "arvancloud" "scrape" "collector_duration_seconds" ∧
    scrapeSuccessDesc.fqName = BuildFQName "arvancloud" "scrape" "collector_success" ∧
    scrapeDurationDesc.variableLabels = [] ∧
    scrapeSuccessDesc.variableLabels = [] ∧
    scrapeDurationDesc.constLabels = [] ∧
    scrapeSuccessDesc.constLabels = [] := by
  refine ⟨by decide, by decide, rfl, rfl, rfl, rfl, rfl, rfl, rfl⟩

end collector

namespace main

/-! ### Where the configuration comes from -/

/-- C6 as stated fails: with `--config-file config.yml --token flag-token`, a
loadable file whose YAML sets the token to "file-token", `loadConfig` returns
the token of the file, not the one of the flag, and that is the token
`NewCollector` stores. -/
theorem loadConfig_flag_does_not_win :
    demoFlags.configFile ≠ "" ∧ demoFlags.token = "flag-token" ∧ demoFlags.token ≠ "" ∧
    ∃ cfg, loadConfig demoReadFile demoUnmarshal demoFlags = .ok cfg ∧
      cfg.Token = "file-token" ∧ cfg.Token ≠ demoFlags.token ∧
      (collector.NewCollector cfg
        (collectorOptions (collector.demoOk "cdn") (collector.demoOk "object")
          demoFlags cfg)).1.token ≠ demoFlags.token := by
  refine ⟨by decide, rfl, by decide, { Token := "file-token", Products := ⟨false, false⟩ },
    rfl, rfl, by decide, by decide⟩

/-- C6, amended: the config file takes precedence over the `--token` flag. When
`--config-file` is given and the file is loadable, `loadConfig` returns the
configuration read from the file, so its token is the token the YAML sets,
whatever `--token` is, and that is the token `NewCollector` stores; the value
of `--token` is the token only when `--config-file` is not given. -/
theorem loadConfig_file_precedence {σ : Type}
    (newCDNCollector newObjectCollector : collector.ArvancloudCollector σ)
    (ReadFile : String → Except String String)
    (Unmarshal : String → config.Config → Except String config.Config) (fl : Flags) :
    (∀ (b : String) (fileCfg : config.Config), fl.configFile ≠ "" →
      ReadFile fl.configFile = .ok b →
      Unmarshal b { Token := "", Products := { CDN := false, OBJECT := false } } = .ok fileCfg →
      loadConfig ReadFile Unmarshal fl = .ok fileCfg ∧
      (collector.NewCollector fileCfg
        (collectorOptions newCDNCollector newObjectCollector fl fileCfg)).1.token
        = fileCfg.Token) ∧
    (fl.configFile = "" →
      loadConfig ReadFile Unmarshal fl =
        .ok { Token := fl.token, Products := { CDN := false, OBJECT := false } }) := by
  refine ⟨?_, ?_⟩
  · intro b fileCfg hfile hread hyaml
    refine ⟨?_, ?_⟩
    · simp [loadConfig, loadConfigFromFile, config.Load, hfile, hread, hyaml]
    · simp only [collectorOptions, collector.NewCollector]
      split_ifs <;> simp [collector.WithCDN, collector.WithObject]
  · intro hnofile
    simp [loadConfig, loadConfigFromFlags, hnofile]

/-- The amended C6 on the command line `--config-file config.yml --token
flag-token`, and on `--token flag-token` alone. -/
theorem loadConfig_file_precedence_witness :
    demoFlags.configFile ≠ "" ∧
    demoReadFile demoFlags.configFile = .ok "token: file-token" ∧
    demoUnmarshal "token: file-token"
        { Token := "", Products := { CDN := false, OBJECT := false } } =
      .ok { Token := "file-token", Products := { CDN := false, OBJECT := false } } ∧
    demoFlagsNoFile.configFile = "" ∧
    (loadConfig demoReadFile demoUnmarshal demoFlags =
      .ok { Token := "file-token", Products := { CDN := false, OBJECT := false } }) ∧
    (loadConfig demoReadFile demoUnmarshal demoFlagsNoFile =
      .ok { Token := "flag-token", Products := { CDN := false, OBJECT := false } }) :=
  ⟨by decide, rfl, rfl, rfl,
   ((loadConfig_file_precedence (collector.demoOk "cdn") (collector.demoOk "object")
      demoReadFile demoUnmarshal demoFlags).1 "token: file-token"
      { Token := "file-token", Products := { CDN := false, OBJECT := false } }
      (by decide) rfl rfl).1,
   (loadConfig_file_precedence (collector.demoOk "cdn") (collector.demoOk "object")
      demoReadFile demoUnmarshal demoFlagsNoFile).2 rfl⟩

end main
